import Mathlib

/-!
Verification of the llmschema repository.

Shallow embedding of the code in `llmschema/core.py`, `llmschema/schema_manager.py`
and `llmschema/exceptions.py`: prompt building (`generate_structured_prompt`),
JSON extraction (`_extract_json`, including the embedded model of Python
`json.loads` and `str.strip`), response validation (`validate_response`), the
retry loop (`generate_response`) and the schema registry
(`SchemaManager.set_schema` / `SchemaManager.get_schema`).

Python strings are modelled as `List Char` (with `String` wrappers at the
interfaces), Python exceptions as an explicit `PyExc` type carried by
`PyResult`, and the nondeterministic LLM provider as an attempt-indexed oracle
`Nat → PyResult String`.
-/

/-! ## Character classes and Python string helpers -/

/-- JSON whitespace, as accepted by Python `json.loads` between tokens. -/
def jsonWsB (c : Char) : Bool :=
  c == ' ' || c == '\t' || c == '\n' || c == '\r'

/-- Python `str.strip()` whitespace (ASCII part: space, tab, newline, carriage
return, vertical tab, form feed). -/
def pyWsB (c : Char) : Bool :=
  c == ' ' || c == '\t' || c == '\n' || c == '\r' || c == '\x0b' || c == '\x0c'

/-- Remove the longest run of characters satisfying `p` from the front. -/
def stripLeadBy (p : Char → Bool) (l : List Char) : List Char :=
  l.dropWhile p

/-- Remove the longest run of characters satisfying `p` from the back. -/
def stripTrailBy (p : Char → Bool) (l : List Char) : List Char :=
  (l.reverse.dropWhile p).reverse

/-- Remove characters satisfying `p` from both ends (Python `str.strip`). -/
def stripBy (p : Char → Bool) (l : List Char) : List Char :=
  stripTrailBy p (stripLeadBy p l)

/-- Python `s.strip()` on the character list of `s`. -/
def pyStripL (l : List Char) : List Char := stripBy pyWsB l

/-- Python `s.strip(chars)`: both ends are trimmed of any character that occurs
in `chars` (a set of characters, not a prefix to remove). -/
def pyStripCharsL (cs : List Char) (l : List Char) : List Char :=
  stripBy (fun c => cs.contains c) l

/-- `listStartsWith p l` is Python `l.startswith(p)`. -/
def listStartsWith : List Char → List Char → Bool
  | [], _ => true
  | _ :: _, [] => false
  | p :: ps, x :: xs => p == x && listStartsWith ps xs

/-- Boolean substring test (Python `needle in hay` for strings). -/
def containsSubB (n : List Char) : List Char → Bool
  | [] => listStartsWith n []
  | c :: t => listStartsWith n (c :: t) || containsSubB n t

/-- Propositional substring occurrence: `n` occurs contiguously inside `h`. -/
def ContainsSub (n h : List Char) : Prop :=
  ∃ a b, h = a ++ n ++ b

/-- Join chunks with a separator (used to model `json.dumps` item joining). -/
def joinSep (sep : List Char) : List (List Char) → List Char
  | [] => []
  | [x] => x
  | x :: y :: t => x ++ sep ++ joinSep sep (y :: t)

/-! ## JSON values -/

/-- Parsed JSON documents, as produced by Python `json.loads`. Numbers keep
their source lexeme (no claim depends on numeric value semantics), objects
keep insertion order as Python dicts do. -/
inductive Json where
  | null : Json
  | bool (b : Bool) : Json
  | num (lexeme : String) : Json
  | str (s : String) : Json
  | arr (items : List Json) : Json
  | obj (members : List (String × Json)) : Json

/-! ## JSON parser (model of Python `json.loads`) -/

/-- Skip JSON whitespace. -/
def skipJsonWs (l : List Char) : List Char := l.dropWhile jsonWsB

/-- Value of a hexadecimal digit. -/
def hexVal (c : Char) : Option Nat :=
  if 48 ≤ c.toNat && c.toNat ≤ 57 then some (c.toNat - 48)
  else if 97 ≤ c.toNat && c.toNat ≤ 102 then some (c.toNat - 87)
  else if 65 ≤ c.toNat && c.toNat ≤ 70 then some (c.toNat - 55)
  else none

/-- Decode a single-character JSON escape (the `\u` form is handled by the
string scanner itself). -/
def escDecode : Char → Option Char
  | '"' => some '"'
  | '\\' => some '\\'
  | '/' => some '/'
  | 'b' => some '\x08'
  | 'f' => some '\x0c'
  | 'n' => some '\n'
  | 'r' => some '\r'
  | 't' => some '\t'
  | _ => none

/-- Parse the body of a JSON string after the opening quote; `acc` holds the
decoded characters in reverse. -/
def parseStringBody (acc : List Char) : List Char → Option (String × List Char)
  | [] => none
  | c :: rest =>
    if c == '"' then some (⟨acc.reverse⟩, rest)
    else if c == '\\' then
      match rest with
      | [] => none
      | e :: rest2 =>
        if e == 'u' then
          match rest2 with
          | h1 :: h2 :: h3 :: h4 :: rest3 =>
            match hexVal h1, hexVal h2, hexVal h3, hexVal h4 with
            | some a, some b, some c2, some d =>
              parseStringBody (Char.ofNat (((a * 16 + b) * 16 + c2) * 16 + d) :: acc) rest3
            | _, _, _, _ => none
          | _ => none
        else
          match escDecode e with
          | some ec => parseStringBody (ec :: acc) rest2
          | none => none
    else if c.toNat < 32 then none
    else parseStringBody (c :: acc) rest

/-- Optional fraction part of a JSON number. -/
def parseFracPart : List Char → Option (List Char × List Char)
  | '.' :: t =>
    let ds := t.takeWhile Char.isDigit
    if ds.isEmpty then none else some ('.' :: ds, t.dropWhile Char.isDigit)
  | l => some ([], l)

/-- Optional exponent part of a JSON number. -/
def parseExpPart : List Char → Option (List Char × List Char)
  | [] => some ([], [])
  | c :: t =>
    if c == 'e' || c == 'E' then
      let sg : List Char × List Char :=
        match t with
        | '+' :: r => (['+'], r)
        | '-' :: r => (['-'], r)
        | r => ([], r)
      let ds := sg.2.takeWhile Char.isDigit
      if ds.isEmpty then none
      else some (c :: (sg.1 ++ ds), sg.2.dropWhile Char.isDigit)
    else some ([], c :: t)

/-- Parse a JSON number lexeme (sign, integer part, fraction, exponent). -/
def parseNumber (l : List Char) : Option (String × List Char) :=
  let sp : List Char × List Char :=
    match l with
    | '-' :: t => (['-'], t)
    | _ => ([], l)
  match sp.2 with
  | [] => none
  | c :: _ =>
    if c == '0' then do
      let (f, r1) ← parseFracPart sp.2.tail
      let (e, r2) ← parseExpPart r1
      pure (⟨sp.1 ++ '0' :: (f ++ e)⟩, r2)
    else if c.isDigit then do
      let ip := sp.2.takeWhile Char.isDigit
      let r0 := sp.2.dropWhile Char.isDigit
      let (f, r1) ← parseFracPart r0
      let (e, r2) ← parseExpPart r1
      pure (⟨sp.1 ++ ip ++ f ++ e⟩, r2)
    else none

/-- Python dict insertion: a repeated key overwrites the value in place. -/
def dictInsert (acc : List (String × Json)) (k : String) (v : Json) :
    List (String × Json) :=
  match acc with
  | [] => [(k, v)]
  | (k0, v0) :: t => if k0 = k then (k0, v) :: t else (k0, v0) :: dictInsert t k v

mutual

/-- Parse a JSON value (fuel-indexed recursive descent). -/
def parseValue : Nat → List Char → Option (Json × List Char)
  | 0, _ => none
  | fuel + 1, l =>
    match skipJsonWs l with
    | [] => none
    | c :: rest =>
      if c == '"' then
        match parseStringBody [] rest with
        | some (s, r) => some (Json.str s, r)
        | none => none
      else if c == '\x7b' then parseObjRest fuel rest
      else if c == '[' then parseArrRest fuel rest
      else if c == 't' then
        match rest with
        | 'r' :: 'u' :: 'e' :: r => some (Json.bool true, r)
        | _ => none
      else if c == 'f' then
        match rest with
        | 'a' :: 'l' :: 's' :: 'e' :: r => some (Json.bool false, r)
        | _ => none
      else if c == 'n' then
        match rest with
        | 'u' :: 'l' :: 'l' :: r => some (Json.null, r)
        | _ => none
      else
        match parseNumber (c :: rest) with
        | some (s, r) => some (Json.num s, r)
        | none => none

/-- Parse the remainder of a JSON object after the opening brace. -/
def parseObjRest : Nat → List Char → Option (Json × List Char)
  | 0, _ => none
  | fuel + 1, l =>
    match skipJsonWs l with
    | '\x7d' :: r => some (Json.obj [], r)
    | _ => parseMembers fuel l []

/-- Parse the members of a JSON object (at least one expected). -/
def parseMembers : Nat → List Char → List (String × Json) →
    Option (Json × List Char)
  | 0, _, _ => none
  | fuel + 1, l, acc =>
    match skipJsonWs l with
    | '"' :: r =>
      match parseStringBody [] r with
      | none => none
      | some (k, r2) =>
        match skipJsonWs r2 with
        | ':' :: r3 =>
          match parseValue fuel r3 with
          | none => none
          | some (v, r4) =>
            match skipJsonWs r4 with
            | ',' :: r5 => parseMembers fuel r5 (dictInsert acc k v)
            | '\x7d' :: r5 => some (Json.obj (dictInsert acc k v), r5)
            | _ => none
        | _ => none
    | _ => none

/-- Parse the remainder of a JSON array after the opening bracket. -/
def parseArrRest : Nat → List Char → Option (Json × List Char)
  | 0, _ => none
  | fuel + 1, l =>
    match skipJsonWs l with
    | ']' :: r => some (Json.arr [], r)
    | _ => parseItems fuel l []

/-- Parse the items of a JSON array (at least one expected). -/
def parseItems : Nat → List Char → List Json → Option (Json × List Char)
  | 0, _, _ => none
  | fuel + 1, l, acc =>
    match parseValue fuel l with
    | none => none
    | some (v, r) =>
      match skipJsonWs r with
      | ',' :: r2 => parseItems fuel r2 (acc ++ [v])
      | ']' :: r2 => some (Json.arr (acc ++ [v]), r2)
      | _ => none

end

/-- Parse a complete JSON document from an already-trimmed character list:
the value must be followed by whitespace only. -/
def parseTop (l : List Char) : Option Json :=
  match parseValue ((l.length + 1) * 4) l with
  | some (v, r) => if (skipJsonWs r).isEmpty then some v else none
  | none => none

/-- Python `json.loads` on a character list: surrounding whitespace is
tolerated, anything else after the document is an error. -/
def json_parseL (l : List Char) : Option Json :=
  parseTop (stripBy jsonWsB l)

/-- Python `json.loads` on a string. -/
def json_parse (s : String) : Option Json := json_parseL s.data

/-! ## `_extract_json` (core.py lines 111-134) -/

/-- The fence marker `"```json"` checked by `_extract_json`. -/
def fenceTag : List Char := ("```json").data

/-- The bare fence marker `"```"`. -/
def ticksTag : List Char := ("```").data

/-- An opening ```json fence line, used to state fence-wrapping properties. -/
def fenceOpen : List Char := ("```json\n").data

/-- A closing fence line. -/
def fenceClose : List Char := ("\n```").data

/-- Embedding of `_extract_json` from core.py: if the stripped text starts
with a ```json fence, strip the fence characters from both ends and parse;
otherwise parse the original text directly. A `none` result models a raised
`json.JSONDecodeError`. -/
def _extract_jsonL (l : List Char) : Option Json :=
  if listStartsWith fenceTag (pyStripL l) then
    json_parseL (pyStripCharsL ticksTag (pyStripCharsL fenceTag (pyStripL l)))
  else
    json_parseL l

/-- `_extract_json` on a Lean `String`. -/
def _extract_json (s : String) : Option Json := _extract_jsonL s.data

/-! ## Python exceptions and results -/

/-- The Python exceptions that cross the boundaries modelled here. -/
inductive PyExc where
  | jsonDecodeError : PyExc
  | llmValidationError (msg : String) : PyExc
  | valueError (msg : String) : PyExc
  | attributeError : PyExc
  | typeError : PyExc
  | otherExc (name : String) : PyExc

/-- Result of running a piece of Python code: a value or a raised exception. -/
inductive PyResult (α : Type) where
  | ok (a : α) : PyResult α
  | exc (e : PyExc) : PyResult α

/-! ## Schema model (schema_manager.py and the Pydantic surface used by core.py) -/

/-- One property of a Pydantic model's `model_json_schema()`: field name,
optional description and declared type tag. -/
structure FieldSpec where
  name : String
  description : Option String
  typeTag : String

/-- The view of a Pydantic model class that core.py consumes:
`model_json_schema()` yields `properties` (in declaration order) and
`required`; `model_fields` yields the same names in the same order. -/
structure PydSchema where
  properties : List FieldSpec
  required : List String

/-- An argument passed to `SchemaManager.set_schema`: a Pydantic model class,
a plain dict, or anything else (which `set_schema` rejects). -/
inductive SchemaArg where
  | pyd (m : PydSchema) : SchemaArg
  | dict (d : Json) : SchemaArg
  | otherVal : SchemaArg

/-- `schema.model_fields.keys()` for a Pydantic model class. -/
def model_fields (m : PydSchema) : List String :=
  m.properties.map FieldSpec.name

/-- Message of the ValueError raised by `set_schema` on an invalid argument. -/
def invalidSchemaMsg : String :=
  "Schema must be either a Pydantic model or a JSON schema dictionary."

/-- Message of the ValueError raised by `get_schema` when no schema is set. -/
def noSchemaMsg : String :=
  "No schema has been set. Use `set_schema()` first."

/-- Embedding of `SchemaManager.set_schema`: class-level state is passed
explicitly; the result pairs the call's outcome with the new state. An
argument that is neither a dict nor a Pydantic model class raises ValueError
and leaves the state untouched. -/
def set_schema (schema : SchemaArg) (st : Option SchemaArg) :
    PyResult Unit × Option SchemaArg :=
  match schema with
  | SchemaArg.otherVal => (PyResult.exc (PyExc.valueError invalidSchemaMsg), st)
  | s => (PyResult.ok (), some s)

/-- Embedding of `SchemaManager.get_schema`: reading unset state raises. -/
def get_schema (st : Option SchemaArg) : PyResult SchemaArg :=
  match st with
  | none => PyResult.exc (PyExc.valueError noSchemaMsg)
  | some s => PyResult.ok s

/-! ## `validate_response` (core.py lines 136-160) -/

/-- First-match association lookup (`key in d` / `d[key]` on a parsed dict,
whose keys are unique). -/
def lookupList (l : List (String × Json)) (k : String) : Option Json :=
  match l with
  | [] => none
  | (k0, v) :: t => if k0 = k then some v else lookupList t k

/-- The loop of `validate_response`: every schema field is kept with its
candidate value, or mapped to `None` (JSON null) when absent. No check of
required fields, no error path. -/
def validateLoop (fields : List String) (resp : List (String × Json)) :
    List (String × Json) :=
  fields.map (fun k =>
    match lookupList resp k with
    | some v => (k, v)
    | none => (k, Json.null))

/-- `e == k` for the Python membership test `k in list` on parsed values. -/
def jsonIsStrEq (j : Json) (k : String) : Bool :=
  match j with
  | Json.str s => s == k
  | _ => false

/-- `validate_response`'s body applied to an arbitrary parsed document: only
dicts support `key in response_json` / `response_json[key]`; a list or string
membership hit makes the subsequent indexing raise TypeError, scalars raise
TypeError at the membership test itself. -/
def validateJson (fields : List String) (j : Json) :
    PyResult (List (String × Json)) :=
  match j with
  | Json.obj members => PyResult.ok (validateLoop fields members)
  | Json.arr items =>
    if fields.any (fun k => items.any (fun e => jsonIsStrEq e k)) then
      PyResult.exc PyExc.typeError
    else PyResult.ok (fields.map (fun k => (k, Json.null)))
  | Json.str s =>
    if fields.any (fun k => containsSubB k.data s.data) then
      PyResult.exc PyExc.typeError
    else PyResult.ok (fields.map (fun k => (k, Json.null)))
  | _ => PyResult.exc PyExc.typeError

/-- Embedding of `validate_response(response_json, schema)`. The first line of
the source reads `schema.model_fields`, so a non-Pydantic schema raises
AttributeError before anything else happens. -/
def validate_response (response_json : Json) (schema : SchemaArg) :
    PyResult (List (String × Json)) :=
  match schema with
  | SchemaArg.pyd m => validateJson (model_fields m) response_json
  | _ => PyResult.exc PyExc.attributeError

/-! ## `generate_structured_prompt` (core.py lines 13-62) -/

/-- Lowercase hexadecimal digit, as emitted by `json.dumps`. -/
def hexDigitL (n : Nat) : Char :=
  if n < 10 then Char.ofNat (48 + n) else Char.ofNat (87 + n)

/-- Four hexadecimal digits of a code unit. -/
def hex4 (n : Nat) : List Char :=
  [hexDigitL (n / 4096 % 16), hexDigitL (n / 256 % 16),
   hexDigitL (n / 16 % 16), hexDigitL (n % 16)]

/-- `json.dumps` escaping of one character (default `ensure_ascii=True`). -/
def encodeJsonChar (c : Char) : List Char :=
  if c == '"' then ['\\', '"']
  else if c == '\\' then ['\\', '\\']
  else if c == '\n' then ['\\', 'n']
  else if c == '\r' then ['\\', 'r']
  else if c == '\t' then ['\\', 't']
  else if c.toNat == 8 then ['\\', 'b']
  else if c.toNat == 12 then ['\\', 'f']
  else if c.toNat < 32 then '\\' :: 'u' :: hex4 c.toNat
  else if c.toNat < 127 then [c]
  else if c.toNat < 65536 then '\\' :: 'u' :: hex4 c.toNat
  else
    ('\\' :: 'u' :: hex4 (55296 + (c.toNat - 65536) / 1024)) ++
    ('\\' :: 'u' :: hex4 (56320 + (c.toNat - 65536) % 1024))

/-- `json.dumps` rendering of a string, quotes included. -/
def encodeJsonString (s : String) : List Char :=
  '"' :: (s.data.map encodeJsonChar).flatten ++ ['"']

/-- The description used for a field: `details.get("description", ...)` with
the default `f"A value for {key}."`. -/
def descOf (f : FieldSpec) : String :=
  f.description.getD ("A value for " ++ f.name ++ ".")

/-- `true` / `false` as emitted by `json.dumps`. -/
def boolL : Bool → List Char
  | true => ['t', 'r', 'u', 'e']
  | false => ['f', 'a', 'l', 's', 'e']

/-- The per-field payload inside `json.dumps(formatted_schema, indent=2)`:
`"description": <desc>,\n    "required": <bool>`. This is the directive the
prompt carries for each field; note it has no type information. -/
def directiveL (f : FieldSpec) (req : List String) : List Char :=
  encodeJsonString ("description") ++ [':', ' '] ++
  encodeJsonString (descOf f) ++ [',', '\n', ' ', ' ', ' ', ' '] ++
  encodeJsonString ("required") ++ [':', ' '] ++ boolL (req.contains f.name)

/-- Leading part of one `json.dumps` entry: two-space indent, quoted key,
colon, opening brace of the inner dict and the inner four-space indent. -/
def entryPre (f : FieldSpec) : List Char :=
  [' ', ' '] ++ encodeJsonString f.name ++ [':', ' ', '\x7b', '\n', ' ', ' ', ' ', ' ']

/-- Closing part of one `json.dumps` entry. -/
def entrySuf : List Char := ['\n', ' ', ' ', '\x7d']

/-- One entry of `json.dumps(formatted_schema, indent=2)`. -/
def entryL (req : List String) (f : FieldSpec) : List Char :=
  entryPre f ++ directiveL f req ++ entrySuf

/-- `json.dumps(formatted_schema, indent=2)` where `formatted_schema` maps
each property name to its description and required flag, in schema order. -/
def dumpsL (props : List FieldSpec) (req : List String) : List Char :=
  match props with
  | [] => ['\x7b', '\x7d']
  | _ :: _ =>
    ['\x7b', '\n'] ++ joinSep [',', '\n'] (props.map (entryL req)) ++ ['\n', '\x7d']

/-- The f-string literal up to the interpolated schema dump (each source line
indented four spaces inside the triple-quoted string). -/
def promptPart1 : String :=
  "\n    You are an AI assistant. Your task is to generate a response in **valid JSON format** that strictly follows the given schema.\n\n    **Guidelines:**\n    - Ensure the response is a **valid JSON object** with the correct key-value pairs.\n    - Each field should contain **realistic values**, not placeholders like \"<string>\", \"null\", or \"undefined\".\n    - **Required fields** must always be included with appropriate values.\n    - **Optional fields** should only be included if relevant; otherwise, omit them.\n    - **Do not add extra fields** beyond those defined in the schema.\n    - Maintain correct data types (e.g., strings for text fields, numbers for numerical fields).\n    - If a field expects a structured response, ensure it adheres to the expected format.\n\n    **Schema to Follow:**\n    "

/-- The f-string literal between the schema dump and the user prompt. -/
def promptPart2 : String := "\n\n    **User Prompt:** "

/-- The f-string literal after the user prompt, up to the closing quotes. -/
def promptPart3 : String :=
  "\n\n    **Expected Output:** A properly structured JSON response that aligns with the schema while containing meaningful values.\n    "

/-- The full structured prompt: the f-string assembled and then `.strip()`ed,
as returned by `generate_structured_prompt`. -/
def buildPromptL (props : List FieldSpec) (req : List String) (u : List Char) :
    List Char :=
  pyStripL (promptPart1.data ++ dumpsL props req ++ promptPart2.data ++ u ++
    promptPart3.data)

/-- Embedding of `generate_structured_prompt(schema, user_prompt)`. Its first
line calls `schema.model_json_schema()`, so a plain dict (or anything not a
Pydantic model class) raises AttributeError. -/
def generate_structured_prompt (schema : SchemaArg) (user_prompt : String) :
    PyResult String :=
  match schema with
  | SchemaArg.pyd m => PyResult.ok ⟨buildPromptL m.properties m.required user_prompt.data⟩
  | _ => PyResult.exc PyExc.attributeError

/-! ## `generate_response` (core.py lines 64-109) -/

/-- Message of the error raised when the retry budget is exhausted. -/
def exhaustedMsg : String :=
  "Failed to obtain a valid JSON response after retries."

/-- One iteration of the retry loop's `try` block: call the provider, extract
JSON (a failure models the raised `json.JSONDecodeError`), then validate. Any
exception raised by the provider call flows to the same `except` clauses. -/
def attemptBody (provider : Nat → PyResult String) (schema : SchemaArg)
    (i : Nat) : PyResult (List (String × Json)) :=
  match provider i with
  | PyResult.exc e => PyResult.exc e
  | PyResult.ok text =>
    match _extract_json text with
    | none => PyResult.exc PyExc.jsonDecodeError
    | some j => validate_response j schema

/-- The retry loop from attempt index `i` with `r` iterations left, paired
with the number of provider invocations performed. `json.JSONDecodeError` is
retried; every other exception propagates at once; exhaustion raises
`LLMValidationError` with `exhaustedMsg`. -/
def genLoopAux (body : Nat → PyResult (List (String × Json))) :
    Nat → Nat → PyResult (List (String × Json)) × Nat
  | _, 0 => (PyResult.exc (PyExc.llmValidationError exhaustedMsg), 0)
  | i, r + 1 =>
    match body i with
    | PyResult.ok v => (PyResult.ok v, 1)
    | PyResult.exc PyExc.jsonDecodeError =>
      ((genLoopAux body (i + 1) r).1, (genLoopAux body (i + 1) r).2 + 1)
    | PyResult.exc e => (PyResult.exc e, 1)

/-- `for attempt in range(max_retries + 1)` over the attempt body. -/
def genLoop (body : Nat → PyResult (List (String × Json))) (max_retries : Nat) :
    PyResult (List (String × Json)) × Nat :=
  genLoopAux body 0 (max_retries + 1)

/-- Embedding of `generate_response(model, prompt, max_retries)`: read the
registered schema, build the prompt once (failing here if the schema is not a
Pydantic model class), then run the retry loop. The pair's second component
counts provider invocations. -/
def generate_response (schemaState : Option SchemaArg)
    (provider : Nat → PyResult String) (prompt : String) (max_retries : Nat) :
    PyResult (List (String × Json)) × Nat :=
  match get_schema schemaState with
  | PyResult.exc e => (PyResult.exc e, 0)
  | PyResult.ok schema =>
    match generate_structured_prompt schema prompt with
    | PyResult.exc e => (PyResult.exc e, 0)
    | PyResult.ok _ => genLoop (attemptBody provider schema) max_retries

/-! ## Concrete inputs used by claim witnesses and counterexamples -/

/-- The sample schema of the repository's test suite: `text` and `confidence`
are required (`alternatives` is left out; it plays no role in the claims). -/
def mEx : PydSchema :=
  ⟨[⟨("text"), some ("Generated response text"), ("string")⟩,
    ⟨("confidence"), some ("Confidence score of the response"), ("number")⟩],
   [("text"), ("confidence")]⟩

/-- The equivalent plain `properties`/`required` dictionary for `mEx`'s first
field, as `SchemaManager.set_schema` accepts it. -/
def dEx : Json :=
  Json.obj [(("properties"), Json.obj [(("text"), Json.obj
    [(("description"), Json.str ("Generated response text")),
     (("type"), Json.str ("string"))])]),
   (("required"), Json.arr [Json.str ("text")])]

/-- A schema with a declared `integer` type tag, used to check what the
built prompt says about types. -/
def fEx : FieldSpec := ⟨("count"), some ("How many items"), ("integer")⟩

/-- An attempt body whose first attempt fails to decode and whose second hits
a validation error, exercising the loop's exception routing. -/
def wBody3 : Nat → PyResult (List (String × Json)) :=
  fun j => if j == 0 then PyResult.exc PyExc.jsonDecodeError
    else PyResult.exc (PyExc.llmValidationError ("missing required"))

/-- A provider that answers non-JSON once and then raises a RuntimeError. -/
def providerW9 : Nat → PyResult String :=
  fun j => if j == 0 then PyResult.ok ("x")
    else PyResult.exc (PyExc.otherExc ("RuntimeError"))

/-- A provider that always answers non-JSON text. -/
def providerW2 : Nat → PyResult String := fun _ => PyResult.ok ("not json")

/-! ## List and strip lemmas -/

theorem dropWhile_append_left (p : Char → Bool) (a b : List Char)
    (h : a.dropWhile p ≠ []) : (a ++ b).dropWhile p = a.dropWhile p ++ b := by
  rw [List.dropWhile_append]
  simp [List.isEmpty_iff, h]

theorem stripLeadBy_append (p : Char → Bool) (a b : List Char)
    (h : a.dropWhile p ≠ []) : stripLeadBy p (a ++ b) = a.dropWhile p ++ b := by
  simp [stripLeadBy, dropWhile_append_left p a b h]

theorem stripTrailBy_append (p : Char → Bool) (a b : List Char)
    (h : b.reverse.dropWhile p ≠ []) :
    stripTrailBy p (a ++ b) = a ++ stripTrailBy p b := by
  unfold stripTrailBy
  rw [List.reverse_append, dropWhile_append_left p b.reverse a.reverse h,
    List.reverse_append, List.reverse_reverse]

theorem stripBy_decomp (p : Char → Bool) (a m t : List Char)
    (ha : a.dropWhile p ≠ []) (ht : t.reverse.dropWhile p ≠ []) :
    stripBy p (a ++ (m ++ t)) = a.dropWhile p ++ (m ++ stripTrailBy p t) := by
  unfold stripBy
  rw [stripLeadBy_append p a (m ++ t) ha, ← List.append_assoc,
    stripTrailBy_append p (a.dropWhile p ++ m) t ht, List.append_assoc]

theorem stripLeadBy_of_head (p : Char → Bool) (l : List Char) (c : Char)
    (h : l.head? = some c) (hc : p c = false) : stripLeadBy p l = l := by
  cases l with
  | nil => simp at h
  | cons x t =>
    simp only [List.head?_cons, Option.some.injEq] at h
    subst h
    simp [stripLeadBy, List.dropWhile_cons, hc]

theorem stripTrailBy_of_getLast (p : Char → Bool) (l : List Char) (d : Char)
    (h : l.getLast? = some d) (hd : p d = false) : stripTrailBy p l = l := by
  unfold stripTrailBy
  have hrev : l.reverse.head? = some d := by rw [List.head?_reverse]; exact h
  cases hrl : l.reverse with
  | nil => rw [hrl] at hrev; simp at hrev
  | cons x t =>
    rw [hrl] at hrev
    simp only [List.head?_cons, Option.some.injEq] at hrev
    subst hrev
    have hstep : List.dropWhile p (x :: t) = x :: t := by
      rw [List.dropWhile_cons, hd]; simp
    rw [hstep, ← hrl, List.reverse_reverse]

theorem stripBy_of_ends (p : Char → Bool) (l : List Char) (c d : Char)
    (h1 : l.head? = some c) (hc : p c = false)
    (h2 : l.getLast? = some d) (hd : p d = false) : stripBy p l = l := by
  unfold stripBy
  rw [stripLeadBy_of_head p l c h1 hc, stripTrailBy_of_getLast p l d h2 hd]

/-! ## Substring lemmas -/

theorem containsSub_append_left (n h x : List Char) (hc : ContainsSub n h) :
    ContainsSub n (x ++ h) := by
  obtain ⟨a, b, rfl⟩ := hc
  exact ⟨x ++ a, b, by simp [List.append_assoc]⟩

theorem containsSub_append_right (n h x : List Char) (hc : ContainsSub n h) :
    ContainsSub n (h ++ x) := by
  obtain ⟨a, b, rfl⟩ := hc
  exact ⟨a, b ++ x, by simp [List.append_assoc]⟩

theorem containsSub_of_decomp (n a b : List Char) :
    ContainsSub n (a ++ n ++ b) := ⟨a, b, rfl⟩

theorem containsSub_trans (n m h : List Char) (h1 : ContainsSub n m)
    (h2 : ContainsSub m h) : ContainsSub n h := by
  obtain ⟨a, b, rfl⟩ := h1
  obtain ⟨x, y, rfl⟩ := h2
  exact ⟨x ++ a, b ++ y, by simp [List.append_assoc]⟩

theorem mem_joinSep (sep : List Char) (x : List Char) (xs : List (List Char))
    (h : x ∈ xs) : ContainsSub x (joinSep sep xs) := by
  induction xs with
  | nil => exact absurd h (List.not_mem_nil x)
  | cons y t ih =>
    rcases List.mem_cons.mp h with h0 | h0
    · subst h0
      cases t with
      | nil => exact ⟨[], [], by simp [joinSep]⟩
      | cons z t2 =>
        exact ⟨[], sep ++ joinSep sep (z :: t2), by simp [joinSep, List.append_assoc]⟩
    · cases t with
      | nil => exact absurd h0 (List.not_mem_nil x)
      | cons z t2 =>
        have := ih h0
        show ContainsSub x (y ++ sep ++ joinSep sep (z :: t2))
        exact containsSub_append_left _ _ _ this

theorem listStartsWith_iff (n l : List Char) :
    listStartsWith n l = true ↔ ∃ r, l = n ++ r := by
  induction n generalizing l with
  | nil => simp [listStartsWith]
  | cons c t ih =>
    cases l with
    | nil =>
      simp only [listStartsWith]
      constructor
      · intro h; exact absurd h (by simp)
      · rintro ⟨r, hr⟩; simp at hr
    | cons x xs =>
      simp only [listStartsWith, Bool.and_eq_true, beq_iff_eq]
      rw [ih]
      constructor
      · rintro ⟨rfl, r, rfl⟩; exact ⟨r, rfl⟩
      · rintro ⟨r, hr⟩
        rw [List.cons_append] at hr
        injection hr with h1 h2
        exact ⟨h1.symm, r, h2⟩

theorem containsSubB_iff (n h : List Char) :
    containsSubB n h = true ↔ ContainsSub n h := by
  induction h with
  | nil =>
    simp only [containsSubB]
    rw [listStartsWith_iff]
    constructor
    · rintro ⟨r, hr⟩
      have hn : n = [] := by
        cases n with
        | nil => rfl
        | cons a b => simp at hr
      subst hn
      exact ⟨[], [], by simp⟩
    · rintro ⟨a, b, hab⟩
      have : a = [] ∧ n ++ b = [] := by
        cases a with
        | nil => exact ⟨rfl, by simpa using hab.symm⟩
        | cons x y => simp at hab
      have hn : n = [] := by
        rcases this with ⟨_, h2⟩
        cases n with
        | nil => rfl
        | cons u v => simp at h2
      subst hn
      exact ⟨[], rfl⟩
  | cons c t ih =>
    simp only [containsSubB, Bool.or_eq_true]
    rw [listStartsWith_iff, ih]
    constructor
    · rintro (⟨r, hr⟩ | hc)
      · exact ⟨[], r, by simpa using hr⟩
      · obtain ⟨a, b, rfl⟩ := hc
        exact ⟨c :: a, b, rfl⟩
    · rintro ⟨a, b, hab⟩
      cases a with
      | nil =>
        left
        exact ⟨b, by simpa using hab⟩
      | cons x y =>
        right
        rw [List.cons_append, List.cons_append] at hab
        injection hab with h1 h2
        exact ⟨y, b, h2⟩

/-! ## Retry-loop lemmas -/

theorem genLoopAux_count_le (body : Nat → PyResult (List (String × Json))) :
    ∀ r i, (genLoopAux body i r).2 ≤ r := by
  intro r
  induction r with
  | zero => intro i; simp [genLoopAux]
  | succ r ih =>
    intro i
    cases hb : body i with
    | ok v => simp [genLoopAux, hb]
    | exc e =>
      cases e with
      | jsonDecodeError =>
        have := ih (i + 1)
        simp [genLoopAux, hb]
        omega
      | llmValidationError msg => simp [genLoopAux, hb]
      | valueError msg => simp [genLoopAux, hb]
      | attributeError => simp [genLoopAux, hb]
      | typeError => simp [genLoopAux, hb]
      | otherExc name => simp [genLoopAux, hb]

theorem genLoopAux_all_decode (body : Nat → PyResult (List (String × Json))) :
    ∀ r i, (∀ j, j < r → body (i + j) = PyResult.exc PyExc.jsonDecodeError) →
    genLoopAux body i r =
      (PyResult.exc (PyExc.llmValidationError exhaustedMsg), r) := by
  intro r
  induction r with
  | zero => intro i _; rfl
  | succ r ih =>
    intro i h
    have h0 : body i = PyResult.exc PyExc.jsonDecodeError := by
      have := h 0 (Nat.succ_pos r)
      simpa using this
    have hrec : genLoopAux body (i + 1) r =
        (PyResult.exc (PyExc.llmValidationError exhaustedMsg), r) := by
      apply ih
      intro j hj
      have := h (j + 1) (by omega)
      rwa [show i + (j + 1) = i + 1 + j by omega] at this
    simp [genLoopAux, h0, hrec]

theorem genLoopAux_fatal (body : Nat → PyResult (List (String × Json))) :
    ∀ k r i e, k < r →
    (∀ j, j < k → body (i + j) = PyResult.exc PyExc.jsonDecodeError) →
    body (i + k) = PyResult.exc e → e ≠ PyExc.jsonDecodeError →
    genLoopAux body i r = (PyResult.exc e, k + 1) := by
  intro k
  induction k with
  | zero =>
    intro r i e hr _ hb hne
    cases r with
    | zero => omega
    | succ r =>
      rw [Nat.add_zero] at hb
      cases e with
      | jsonDecodeError => exact absurd rfl hne
      | llmValidationError msg => simp [genLoopAux, hb]
      | valueError msg => simp [genLoopAux, hb]
      | attributeError => simp [genLoopAux, hb]
      | typeError => simp [genLoopAux, hb]
      | otherExc name => simp [genLoopAux, hb]
  | succ k ih =>
    intro r i e hr hdec hb hne
    cases r with
    | zero => omega
    | succ r =>
      have h0 : body i = PyResult.exc PyExc.jsonDecodeError := by
        have := hdec 0 (Nat.succ_pos k)
        simpa using this
      have hrec : genLoopAux body (i + 1) r = (PyResult.exc e, k + 1) := by
        apply ih r (i + 1) e (by omega)
        · intro j hj
          have := hdec (j + 1) (by omega)
          rwa [show i + (j + 1) = i + 1 + j by omega] at this
        · rwa [show i + 1 + k = i + (k + 1) by omega]
        · exact hne
      simp [genLoopAux, h0, hrec]

/-! ## Validator lemmas -/

theorem validateLoop_map_fst (fields : List String)
    (resp : List (String × Json)) :
    (validateLoop fields resp).map Prod.fst = fields := by
  induction fields with
  | nil => rfl
  | cons f t ih =>
    simp only [validateLoop, List.map_cons] at ih ⊢
    cases h : lookupList resp f <;> simp [ih]

theorem validateLoop_lookup_missing (fields : List String)
    (resp : List (String × Json)) (k : String) (hk : k ∈ fields)
    (hm : lookupList resp k = none) :
    lookupList (validateLoop fields resp) k = some Json.null := by
  induction fields with
  | nil => exact absurd hk (List.not_mem_nil k)
  | cons f t ih =>
    rcases List.mem_cons.mp hk with h0 | h0
    · subst h0
      simp [validateLoop, List.map_cons, hm, lookupList]
    · by_cases hf : f = k
      · subst hf
        simp [validateLoop, List.map_cons, hm, lookupList]
      · simp only [validateLoop, List.map_cons]
        cases hl : lookupList resp f <;>
          simp only [lookupList, if_neg hf] <;> exact ih h0

theorem validateLoop_lookup_extra (fields : List String)
    (resp : List (String × Json)) (k : String) (hk : ¬ k ∈ fields) :
    lookupList (validateLoop fields resp) k = none := by
  induction fields with
  | nil => rfl
  | cons f t ih =>
    have hf : f ≠ k := fun h => hk (h ▸ List.mem_cons_self f t)
    have ht : ¬ k ∈ t := fun h => hk (List.mem_cons_of_mem f h)
    simp only [validateLoop, List.map_cons]
    cases hl : lookupList resp f <;>
      simp only [lookupList, if_neg hf] <;> exact ih ht

/-! ## Claim theorems -/

/-- Claim C1. The claim states that `validate_response` raises
`SchemaValidationError` when a required field is missing, null, or a
whitespace-only string. The code has no such check: evaluated on a candidate
that omits the required `text` field (and on one whose `text` is only
whitespace), it returns normally, null-filling the missing key — contradicting
the repository's own test `test_generate_response_validates_schema` and the
docstring of `validate_response`. This theorem evaluates the code at those
failing inputs. -/
theorem claim1_required_missing_not_rejected :
    validate_response (Json.obj [(("confidence"), Json.num ("0.95"))])
      (SchemaArg.pyd mEx) =
      PyResult.ok [(("text"), Json.null), (("confidence"), Json.num ("0.95"))] ∧
    validate_response (Json.obj [(("text"), Json.str ("   ")),
      (("confidence"), Json.num ("0.95"))]) (SchemaArg.pyd mEx) =
      PyResult.ok [(("text"), Json.str ("   ")),
        (("confidence"), Json.num ("0.95"))] :=
  ⟨rfl, rfl⟩

/-- Claim C5, counterexample. On the input with leading narrative text,
`_extract_json` does not return the parsed map: the fence is only recognized
when the stripped text *starts with* the ```json tag, so the whole input is
fed to the JSON parser and extraction fails (a raised `json.JSONDecodeError`,
modelled as `none`). -/
theorem claim5_counterexample :
    _extract_json ("Sure!\n```json\n\x7b\"text\":\"ok\"\x7d\n```\nThanks") = none :=
  rfl

/-- Claim C5, amended. `_extract_json` handles a fenced block only when the
stripped response starts with the ```json tag: such a block (even with
multi-line content) parses correctly, but an untagged fence or any leading
narrative text makes extraction fail with a JSON decode error. -/
theorem claim5_amended :
    _extract_json ("```json\n\x7b\n  \"text\": \"ok\"\n\x7d\n```") =
      some (Json.obj [(("text"), Json.str ("ok"))]) ∧
    _extract_json ("```\n\x7b\"text\":\"ok\"\x7d\n```") = none ∧
    _extract_json ("Sure!\n```json\n\x7b\"text\":\"ok\"\x7d\n```\nThanks") = none :=
  ⟨rfl, rfl, rfl⟩

/-- Claim C6. The claim states that a plain `properties`/`required` dict is
accepted by prompt building and validation with behavior identical to the
Pydantic form. In the code both `generate_structured_prompt` (via
`schema.model_json_schema()`) and `validate_response` (via
`schema.model_fields`) raise AttributeError on a dict, and `generate_response`
therefore fails before any provider invocation — although
`SchemaManager.set_schema` explicitly accepts the dict form and the
repository's sample sets a dict schema. This theorem evaluates the code at
that failing input. -/
theorem claim6_dict_schema_attribute_error :
    generate_structured_prompt (SchemaArg.dict dEx) ("hi") =
      PyResult.exc PyExc.attributeError ∧
    validate_response (Json.obj [(("text"), Json.str ("ok"))])
      (SchemaArg.dict dEx) = PyResult.exc PyExc.attributeError ∧
    generate_response (some (SchemaArg.dict dEx)) (fun _ => PyResult.ok (""))
      ("hi") 2 = (PyResult.exc PyExc.attributeError, 0) :=
  ⟨rfl, rfl, rfl⟩

/-- Claim C10: `set_schema` called with an argument that is neither a dict
nor a Pydantic model class raises ValueError and leaves the registry state
unchanged, so every subsequent `get_schema` behaves exactly as before the
failed call (including still raising the no-schema error when nothing was
ever set). -/
theorem claim10_set_schema_invalid_state_unchanged (st : Option SchemaArg) :
    set_schema SchemaArg.otherVal st =
      (PyResult.exc (PyExc.valueError invalidSchemaMsg), st) ∧
    get_schema (set_schema SchemaArg.otherVal st).2 = get_schema st :=
  ⟨rfl, rfl⟩

/-- Claim C2: with a registered schema and `max_retries = n`,
`generate_response` performs at most `n + 1` provider invocations, and when
every attempt's extraction fails with a JSON decode error it performs exactly
`n + 1` invocations and raises the retry-budget-exhausted
`LLMValidationError`. -/
theorem claim2_retry_budget (m : PydSchema) (provider : Nat → PyResult String)
    (prompt : String) (n : Nat) :
    (generate_response (some (SchemaArg.pyd m)) provider prompt n).2 ≤ n + 1 ∧
    ((∀ i, i ≤ n → ∃ t, provider i = PyResult.ok t ∧ _extract_json t = none) →
      generate_response (some (SchemaArg.pyd m)) provider prompt n =
        (PyResult.exc (PyExc.llmValidationError exhaustedMsg), n + 1)) := by
  have hred : generate_response (some (SchemaArg.pyd m)) provider prompt n =
      genLoop (attemptBody provider (SchemaArg.pyd m)) n := rfl
  constructor
  · rw [hred]
    exact genLoopAux_count_le _ (n + 1) 0
  · intro h
    rw [hred]
    apply genLoopAux_all_decode
    intro j hj
    obtain ⟨t, hp, he⟩ := h j (by omega)
    simp [attemptBody, Nat.zero_add, hp, he]

/-- Claim C2 witness: with `max_retries = 1` and a provider that always
returns non-JSON text, exactly two provider calls happen and the
budget-exhausted error is raised. -/
theorem claim2_witness :
    generate_response (some (SchemaArg.pyd mEx)) providerW2 ("p") 1 =
      (PyResult.exc (PyExc.llmValidationError exhaustedMsg), 2) :=
  (claim2_retry_budget mEx providerW2 ("p") 1).2
    (fun _ _ => ⟨("not json"), rfl, rfl⟩)

/-- Claim C3: within one `generate_response` call's attempt loop, a
`json.JSONDecodeError` outcome makes the loop proceed to the next attempt,
while an `LLMValidationError` outcome propagates immediately: if the first
`i` attempts fail to decode and attempt `i` raises the validation error, the
loop stops right there with `i + 1` provider invocations — the decode errors
each consumed an attempt, the validation error did not consume any further
one. -/
theorem claim3_fatal_validation_error
    (body : Nat → PyResult (List (String × Json))) (n i : Nat) (msg : String)
    (h1 : i ≤ n)
    (h2 : ∀ j, j < i → body j = PyResult.exc PyExc.jsonDecodeError)
    (h3 : body i = PyResult.exc (PyExc.llmValidationError msg)) :
    genLoop body n = (PyResult.exc (PyExc.llmValidationError msg), i + 1) := by
  unfold genLoop
  apply genLoopAux_fatal body i (n + 1) 0 (PyExc.llmValidationError msg)
    (by omega)
  · intro j hj
    simpa using h2 j hj
  · simpa using h3
  · intro hcontra
    exact PyExc.noConfusion hcontra

/-- Claim C3 witness: one decode failure followed by a validation error stops
the loop after two attempts even though the budget would allow four. -/
theorem claim3_witness :
    genLoop wBody3 3 =
      (PyResult.exc (PyExc.llmValidationError ("missing required")), 2) :=
  claim3_fatal_validation_error wBody3 3 1 ("missing required") (by omega)
    (fun j hj => by
      have hj0 : j = 0 := Nat.lt_one_iff.mp hj
      subst hj0
      rfl)
    rfl

/-- Claim C9: any exception from the provider invocation other than the two
handled kinds propagates out of `generate_response` immediately and unchanged
after the attempt that raised it, with no further provider invocations. -/
theorem claim9_provider_exception_propagates (m : PydSchema)
    (provider : Nat → PyResult String) (prompt : String) (n i : Nat)
    (name : String) (h1 : i ≤ n)
    (h2 : ∀ j, j < i → ∃ t, provider j = PyResult.ok t ∧ _extract_json t = none)
    (h3 : provider i = PyResult.exc (PyExc.otherExc name)) :
    generate_response (some (SchemaArg.pyd m)) provider prompt n =
      (PyResult.exc (PyExc.otherExc name), i + 1) := by
  have hred : generate_response (some (SchemaArg.pyd m)) provider prompt n =
      genLoop (attemptBody provider (SchemaArg.pyd m)) n := rfl
  rw [hred]
  unfold genLoop
  apply genLoopAux_fatal _ i (n + 1) 0 (PyExc.otherExc name) (by omega)
  · intro j hj
    obtain ⟨t, hp, he⟩ := h2 j hj
    simp [attemptBody, hp, he]
  · simp [attemptBody, h3]
  · intro hcontra
    exact PyExc.noConfusion hcontra

/-- Claim C9 witness: after one non-JSON answer, a RuntimeError from the
provider on the second attempt propagates unchanged with exactly two provider
invocations, although the budget would allow four. -/
theorem claim9_witness :
    generate_response (some (SchemaArg.pyd mEx)) providerW9 ("p") 3 =
      (PyResult.exc (PyExc.otherExc ("RuntimeError")), 2) :=
  claim9_provider_exception_propagates mEx providerW9 ("p") 3 1
    ("RuntimeError") (by omega)
    (fun j hj => by
      have hj0 : j = 0 := Nat.lt_one_iff.mp hj
      subst hj0
      exact ⟨("x"), rfl, rfl⟩)
    rfl

/-- Claim C4: for every Pydantic schema and candidate map, `validate_response`
returns (it never raises `SchemaValidationError` on a dict candidate) a map
whose keys are exactly the schema's field names in schema order: candidate
keys absent from the schema are dropped, and schema fields absent from the
candidate appear mapped to JSON null. -/
theorem claim4_validator_key_completeness (m : PydSchema)
    (resp : List (String × Json)) :
    validate_response (Json.obj resp) (SchemaArg.pyd m) =
      PyResult.ok (validateLoop (model_fields m) resp) ∧
    (validateLoop (model_fields m) resp).map Prod.fst = model_fields m ∧
    (∀ k, k ∈ model_fields m → lookupList resp k = none →
      lookupList (validateLoop (model_fields m) resp) k = some Json.null) ∧
    (∀ k, ¬ k ∈ model_fields m →
      lookupList (validateLoop (model_fields m) resp) k = none) :=
  ⟨rfl, validateLoop_map_fst _ _,
    fun k hk hm => validateLoop_lookup_missing _ _ k hk hm,
    fun k hk => validateLoop_lookup_extra _ _ k hk⟩

/-- Claim C4 witness: on the sample schema with an empty candidate, the
missing required key `text` maps to null, and a foreign key is absent. -/
theorem claim4_witness :
    lookupList (validateLoop (model_fields mEx) []) ("text") =
      some Json.null ∧
    lookupList (validateLoop (model_fields mEx) []) ("extra") = none :=
  ⟨(claim4_validator_key_completeness mEx []).2.2.1 ("text") (by decide) rfl,
   (claim4_validator_key_completeness mEx []).2.2.2 ("extra") (by decide)⟩

/-! ## Prompt decomposition (for claim C7) -/

theorem buildPromptL_decomp (props : List FieldSpec) (req : List String)
    (u : List Char) :
    buildPromptL props req u =
      promptPart1.data.dropWhile pyWsB ++
        (dumpsL props req ++ (promptPart2.data ++ (u ++
          stripTrailBy pyWsB promptPart3.data))) := by
  unfold buildPromptL pyStripL
  have h1 : promptPart1.data.dropWhile pyWsB ≠ [] := by decide
  have h3 : promptPart3.data.reverse.dropWhile pyWsB ≠ [] := by decide
  calc stripBy pyWsB (promptPart1.data ++ dumpsL props req ++
        promptPart2.data ++ u ++ promptPart3.data)
      = stripBy pyWsB (promptPart1.data ++ ((dumpsL props req ++
          promptPart2.data ++ u) ++ promptPart3.data)) := by
        simp [List.append_assoc]
    _ = promptPart1.data.dropWhile pyWsB ++ ((dumpsL props req ++
          promptPart2.data ++ u) ++ stripTrailBy pyWsB promptPart3.data) :=
        stripBy_decomp pyWsB _ _ _ h1 h3
    _ = _ := by simp [List.append_assoc]

theorem dumpsL_contains_entry (props : List FieldSpec) (req : List String)
    (f : FieldSpec) (hf : f ∈ props) :
    ContainsSub (entryL req f) (dumpsL props req) := by
  cases props with
  | nil => exact absurd hf (List.not_mem_nil f)
  | cons p t =>
    have hmem : entryL req f ∈ (p :: t).map (entryL req) :=
      List.mem_map_of_mem (entryL req) hf
    have hjoin : ContainsSub (entryL req f)
        (joinSep [',', '\n'] ((p :: t).map (entryL req))) :=
      mem_joinSep _ _ _ hmem
    show ContainsSub (entryL req f) (['\x7b', '\n'] ++
      joinSep [',', '\n'] ((p :: t).map (entryL req)) ++ ['\n', '\x7d'])
    exact containsSub_append_right _ _ _ (containsSub_append_left _ _ _ hjoin)

set_option maxRecDepth 20000 in
/-- Claim C7, counterexample. The claim says the built prompt contains, for
each field, a directive combining its description, required status and
declared type constraint. For a schema whose single field is declared with
type `integer`, the word `integer` does not occur anywhere in the built
prompt: `generate_structured_prompt` reads only `description` and `required`
from each property and drops the type. -/
theorem claim7_counterexample :
    containsSubB (("integer").data)
      (buildPromptL [fEx] [("count")] (("hi").data)) = false := by
  decide

/-- Claim C7, amended: for every schema and user prompt, the built prompt
contains, for each schema field, a directive combining that field's
description and its required/optional status (the `json.dumps` entry
`"description": ..., "required": ...`); the declared type constraint is not
part of the directive. -/
theorem claim7_amended (props : List FieldSpec) (req : List String)
    (u : List Char) (f : FieldSpec) (hf : f ∈ props) :
    ContainsSub (directiveL f req) (buildPromptL props req u) := by
  rw [buildPromptL_decomp props req u]
  have hentry : ContainsSub (directiveL f req) (entryL req f) :=
    ⟨entryPre f, entrySuf, rfl⟩
  have hdumps : ContainsSub (directiveL f req) (dumpsL props req) :=
    containsSub_trans _ _ _ hentry (dumpsL_contains_entry props req f hf)
  apply containsSub_append_left
  apply containsSub_append_right
  exact hdumps

/-- Claim C7 witness: the description/required directive of the `count` field
occurs in the concrete built prompt. -/
theorem claim7_witness :
    ContainsSub (directiveL fEx [("count")])
      (buildPromptL [fEx] [("count")] (("hi").data)) :=
  claim7_amended [fEx] [("count")] (("hi").data) fEx
    (List.mem_singleton.mpr rfl)

/-! ## Extraction idempotence (claim C8) -/

theorem stripBy_jsonWs_pad (l : List Char) (h1 : l.head? = some '\x7b')
    (h2 : l.getLast? = some '\x7d') :
    stripBy jsonWsB ('\n' :: (l ++ ['\n'])) = l := by
  have hl : l ≠ [] := by intro h; rw [h] at h1; simp at h1
  have hlead : stripLeadBy jsonWsB l = l :=
    stripLeadBy_of_head jsonWsB l '\x7b' h1 (by decide)
  have hdw : l.dropWhile jsonWsB = l := hlead
  unfold stripBy
  have step1 : stripLeadBy jsonWsB ('\n' :: (l ++ ['\n'])) = l ++ ['\n'] := by
    unfold stripLeadBy
    rw [List.dropWhile_cons]
    have : jsonWsB '\n' = true := by decide
    rw [this]
    simp only [if_true]
    rw [dropWhile_append_left jsonWsB l ['\n'] (by rw [hdw]; exact hl), hdw]
  rw [step1]
  unfold stripTrailBy
  have hrev : (l ++ ['\n']).reverse = '\n' :: l.reverse := by
    rw [List.reverse_append]
    rfl
  rw [hrev, List.dropWhile_cons]
  have : jsonWsB '\n' = true := by decide
  rw [this]
  simp only [if_true]
  have hrevhead : l.reverse.head? = some '\x7d' := by
    rw [List.head?_reverse]; exact h2
  have : l.reverse.dropWhile jsonWsB = l.reverse :=
    stripLeadBy_of_head jsonWsB l.reverse '\x7d' hrevhead (by decide)
  rw [this, List.reverse_reverse]

/-- Claim C8: `_extract_json` applied to already-clean JSON object text (no
surrounding whitespace: it starts with an opening brace and ends with a
closing brace) returns exactly `json.loads` of that text, and wrapping the
same text in a ```json fenced code block yields the same parsed result as the
unwrapped text. -/
theorem claim8_extraction_idempotence (l : List Char)
    (h1 : l.head? = some '\x7b') (h2 : l.getLast? = some '\x7d') :
    _extract_jsonL l = json_parseL l ∧
    _extract_jsonL (fenceOpen ++ (l ++ fenceClose)) = json_parseL l := by
  have hl : l ≠ [] := by intro h; rw [h] at h1; simp at h1
  obtain ⟨c, t, rfl⟩ : ∃ c t, l = c :: t := by
    cases l with
    | nil => exact absurd rfl hl
    | cons c t => exact ⟨c, t, rfl⟩
  have hc : c = '\x7b' := by simpa using h1
  subst hc
  constructor
  · have hstrip : pyStripL ('\x7b' :: t) = '\x7b' :: t :=
      stripBy_of_ends pyWsB _ '\x7b' '\x7d' rfl (by decide) h2 (by decide)
    unfold _extract_jsonL
    rw [hstrip]
    have hfence : listStartsWith fenceTag ('\x7b' :: t) = false := rfl
    rw [hfence]
    simp
  · set l := '\x7b' :: t with hldef
    have hw : pyStripL (fenceOpen ++ (l ++ fenceClose)) =
        fenceOpen ++ (l ++ fenceClose) := by
      apply stripBy_of_ends pyWsB _ '`' '`'
      · rfl
      · decide
      · rw [List.getLast?_append, List.getLast?_append]; rfl
      · decide
    unfold _extract_jsonL
    rw [hw]
    have hfence : listStartsWith fenceTag (fenceOpen ++ (l ++ fenceClose)) =
        true := rfl
    rw [hfence]
    simp only [if_true]
    have hstrip1 : pyStripCharsL fenceTag (fenceOpen ++ (l ++ fenceClose)) =
        '\n' :: (l ++ ['\n']) := by
      unfold pyStripCharsL
      rw [stripBy_decomp _ fenceOpen l fenceClose (by decide) (by decide)]
      have ha : fenceOpen.dropWhile (fun c => fenceTag.contains c) = ['\n'] :=
        by decide
      have hb : stripTrailBy (fun c => fenceTag.contains c) fenceClose =
          ['\n'] := by decide
      rw [ha, hb]
      rfl
    rw [hstrip1]
    have hstrip2 : pyStripCharsL ticksTag ('\n' :: (l ++ ['\n'])) =
        '\n' :: (l ++ ['\n']) := by
      unfold pyStripCharsL
      apply stripBy_of_ends _ _ '\n' '\n'
      · rfl
      · decide
      · rw [show '\n' :: (l ++ ['\n']) = ('\n' :: l) ++ ['\n'] by simp,
          List.getLast?_append]
        rfl
      · decide
    rw [hstrip2]
    unfold json_parseL
    rw [stripBy_jsonWs_pad l rfl h2,
      stripBy_of_ends jsonWsB l '\x7b' '\x7d' rfl (by decide) h2 (by decide)]

/-- Claim C8 witness: the clean JSON object text parses identically bare and
fence-wrapped. -/
theorem claim8_witness :
    _extract_jsonL (("\x7b\"a\": 1\x7d").data) =
      json_parseL (("\x7b\"a\": 1\x7d").data) ∧
    _extract_jsonL (fenceOpen ++ ((("\x7b\"a\": 1\x7d").data) ++ fenceClose)) =
      json_parseL (("\x7b\"a\": 1\x7d").data) :=
  claim8_extraction_idempotence (("\x7b\"a\": 1\x7d").data) (by decide)
    (by decide)
